import Mathlib

/-!
Verification of the scoped symbol-table / code-emission core of the
kalray/metalibm repository (files `framework/code_generation/code_object.py`
and `metalibm_core/code_generation/vhdl_backend.py`, Python 2).

The Python code is shallowly embedded: the mutable `SymbolTable` objects live
in an explicit `Store` (heap), and each `MultiSymbolTable` holds indices
(references) into that store, so Python's aliasing of shared tables across
nested scopes is represented faithfully.  Python dicts are modelled as
insertion-ordered association lists together with an explicit model of
CPython 2.7's hash-slot iteration order (needed because the source iterates
dicts when emitting declarations).
-/

namespace Metalibm

/-! ### Decimal rendering of a natural number

The Python source builds names with `"%s%d" % (prefix, new_index)`;
`natToDec` renders the index in decimal exactly as `%d` does.
The fuel-based recursion keeps the function kernel-reducible. -/

/-- Character of a single decimal digit (`d < 10`). -/
def digitChr (d : Nat) : Char := Char.ofNat (48 + d)

/-- Decimal digits of `n`, most significant first; `fuel ≥ n + 1` suffices.
The recursion is structural on the fuel so the kernel can evaluate it. -/
def natToDecCore : Nat → Nat → List Char
  | 0, _ => []
  | f + 1, n => if n < 10 then [digitChr n] else natToDecCore f (n / 10) ++ [digitChr (n % 10)]

/-- Decimal rendering of a natural number, as Python's `"%d"` produces it. -/
def natToDec (n : Nat) : String := ⟨natToDecCore (n + 1) n⟩

/-- Value recovered from a list of decimal digit characters. -/
def decVal (l : List Char) : Nat := l.foldl (fun a c => a * 10 + (c.toNat - 48)) 0

theorem decVal_append_digit (l : List Char) (c : Char) :
    decVal (l ++ [c]) = decVal l * 10 + (c.toNat - 48) := by
  simp [decVal, List.foldl_append]

theorem digitChr_toNat (d : Nat) (h : d < 10) : (digitChr d).toNat = 48 + d := by
  interval_cases d <;> decide

theorem natToDecCore_fuel (f n : Nat) (h : n < f) :
    natToDecCore f n = natToDecCore (n + 1) n := by
  induction n using Nat.strong_induction_on generalizing f with
  | _ n ih =>
    match f, h with
    | f + 1, h =>
      by_cases h10 : n < 10
      · simp [natToDecCore, h10]
      · have hn0 : 0 < n := by omega
        have hdiv : n / 10 < n := Nat.div_lt_self hn0 (by omega)
        simp only [natToDecCore, if_neg h10,
          ih (n / 10) hdiv f (by omega), ih (n / 10) hdiv n (by omega)]

theorem decVal_natToDecCore (n : Nat) : decVal (natToDecCore (n + 1) n) = n := by
  induction n using Nat.strong_induction_on with
  | _ n ih =>
    by_cases h10 : n < 10
    · simp [natToDecCore, h10, decVal, digitChr_toNat n h10]
    · have hn0 : 0 < n := by omega
      have hdiv : n / 10 < n := Nat.div_lt_self hn0 (by omega)
      simp only [natToDecCore, if_neg h10]
      rw [natToDecCore_fuel n (n / 10) (by omega), decVal_append_digit,
        ih (n / 10) hdiv, digitChr_toNat (n % 10) (Nat.mod_lt n (by omega))]
      omega

theorem natToDec_injective : Function.Injective natToDec := by
  intro a b h
  have : decVal (natToDecCore (a + 1) a) = decVal (natToDecCore (b + 1) b) := by
    simp only [natToDec] at h
    rw [show natToDecCore (a + 1) a = natToDecCore (b + 1) b from congrArg String.data h]
  rwa [decVal_natToDecCore, decVal_natToDecCore] at this

/-! ### CPython 2.7 dict model

The source iterates Python dicts (`for symbol in self.table`, `for key in
self.table`).  In CPython 2.7 (hash randomization off, the default) a dict
of at most 5 string keys is an 8-slot open-addressing table and iteration
visits slots in ascending order; when all keys land in distinct slots the
iteration order is exactly ascending `hash(key) % 8`.  `pyDictIter` models
that order by a stable sort on the slot; the scenarios proved below only
involve dicts whose keys occupy pairwise distinct slots. -/

/-- The CPython 2.7 string hash (64-bit build): `x = ord(s[0]) << 7`, then
`x = (1000003*x) ^ ord(c)` over all characters, then `x ^= len(s)`,
with the final `-1 ↦ -2` adjustment; everything modulo `2^64`. -/
def cpyStrHash (s : String) : Nat :=
  match s.data with
  | [] => 0
  | c :: _ =>
    let m : Nat := 2 ^ 64
    let x0 : Nat := (c.toNat <<< 7) % m
    let x1 : Nat := s.data.foldl (fun x ch => ((1000003 * x) % m) ^^^ ch.toNat) x0
    let x2 : Nat := x1 ^^^ s.length
    if x2 = m - 1 then m - 2 else x2

/-- Hash slot of a string key in an 8-slot CPython dict. -/
def pySlot (s : String) : Nat := cpyStrHash s % 8

/-- Insert an entry into a slot-sorted list, before the first entry of equal
or larger slot (stability: the entry being inserted was inserted into the
dict earlier than the tail entries). -/
def slotInsert (p : String × α) : List (String × α) → List (String × α)
  | [] => [p]
  | q :: t => if pySlot p.1 ≤ pySlot q.1 then p :: q :: t else q :: slotInsert p t

/-- Iteration order of a CPython 2.7 dict with ≤ 5 entries, given its
entries in insertion order. -/
def pyDictIter : List (String × α) → List (String × α)
  | [] => []
  | p :: t => slotInsert p (pyDictIter t)

theorem slotInsert_perm (p : String × α) (l : List (String × α)) :
    (slotInsert p l).Perm (p :: l) := by
  induction l with
  | nil => simp [slotInsert]
  | cons q t ih =>
    by_cases h : pySlot p.1 ≤ pySlot q.1
    · simp [slotInsert, h]
    · simp only [slotInsert, if_neg h]
      exact (ih.cons q).trans (List.Perm.swap p q t)

theorem pyDictIter_perm (l : List (String × α)) : (pyDictIter l).Perm l := by
  induction l with
  | nil => simp [pyDictIter]
  | cons p t ih => exact (slotInsert_perm p (pyDictIter t)).trans (ih.cons p)

/-- Python dict assignment `d[k] = v`: replace the value of an existing key
in place, otherwise append the new entry. -/
def pyAssocSet [BEq κ] (k : κ) (v : α) : List (κ × α) → List (κ × α)
  | [] => [(k, v)]
  | (k', v') :: t => if k' == k then (k', v) :: t else (k', v') :: pyAssocSet k v t

/-- Python dict lookup `d[k]`, as an option. -/
def pyAssocGet? [BEq κ] (k : κ) : List (κ × α) → Option α
  | [] => none
  | (k', v) :: t => if k' == k then some v else pyAssocGet? k t

/-- Python `k in d`. -/
def pyContainsKey [BEq κ] (l : List (κ × α)) (k : κ) : Bool :=
  l.any (fun p => p.1 == k)

/-! ### Data model: formats, Python objects, languages -/

/-- The format descriptors from `core/ml_formats.py` / `ml_hdl_format.py`
that the embedded code manipulates. -/
inductive MLFormat where
  | ML_StdLogic
  | ML_StdLogicVectorFormat (bit_size : Nat)
  | ML_Integer
  | ML_Bool
  | ML_Binary16
  | ML_Binary32
  | ML_Binary64
deriving DecidableEq, Repr

/-- A Python object stored in a symbol table.  `oid` models the object's
identity (`id()`): distinct runtime objects carry distinct `oid`s, so
Python's `is` is `oid` equality. -/
structure PyObj where
  oid : Nat
  precision : Option MLFormat := none
  storage_precision : Option MLFormat := none
deriving DecidableEq, Repr

/-- Python `a is b` for table entries. -/
def PyObj.isSame (a b : PyObj) : Bool := a.oid == b.oid

/-- Output languages (`code_constant.py`). -/
inductive Language where
  | C_Code
  | Gappa_Code
  | VHDL_Code
deriving DecidableEq, Repr

/-- The external code generator handed to `generate_declaration`
(not part of src): only its `language` field and its
`generate_declaration(symbol, symbol_object)` method are used. -/
structure CodeGenerator where
  language : Language
  gen_declaration : String → PyObj → String

/-! ### `SymbolTable` (code_object.py lines 28-62) -/

/-- Source `SymbolTable`: a name → object dict plus the per-prefix last-issued
index dict. -/
structure SymbolTable where
  table : List (String × PyObj)
  prefix_index : List (String × Nat)
deriving DecidableEq, Repr

/-- Source `SymbolTable()` constructor. -/
def emptySymbolTable : SymbolTable := ⟨[], []⟩

/-- Source `is_free_name`: `not name in self.table`. -/
def SymbolTable.is_free_name (st : SymbolTable) (name : String) : Bool :=
  !(pyContainsKey st.table name)

/-- Source `declare_symbol`: `self.table[name] = symbol_object`. -/
def SymbolTable.declare_symbol (st : SymbolTable) (name : String) (symbol_object : PyObj) :
    SymbolTable :=
  { st with table := pyAssocSet name symbol_object st.table }

/-- Source `has_definition`: first key (in dict iteration order) whose value `is`
the given object. -/
def SymbolTable.has_definition (st : SymbolTable) (symbol_object : PyObj) : Option String :=
  (pyDictIter st.table).findSome?
    (fun p => if p.2.isSame symbol_object then some p.1 else none)

/-- Source `generate_declaration`: concatenate the code generator's declaration of
every entry, in dict iteration order. -/
def SymbolTable.generate_declaration (st : SymbolTable) (cg : CodeGenerator) : String :=
  (pyDictIter st.table).foldl (fun acc p => acc ++ cg.gen_declaration p.1 p.2) ""

/-! ### Termination of the free-name probe loop -/

/-- There are infinitely many strings of the form `pre ++ decimal`, so some
index at or above `start` escapes any finite set of used names. -/
theorem exists_fresh_decName (used : List String) (pre : String) (start : Nat) :
    ∃ k : Nat, (pre ++ natToDec (start + k)) ∉ used := by
  by_contra hall
  push_neg at hall
  have hinj : Function.Injective (fun k : Nat => pre ++ natToDec (start + k)) := by
    intro a b h
    have hdata := congrArg String.data h
    simp only [String.data_append] at hdata
    have htail := List.append_cancel_left hdata
    have hval := congrArg decVal htail
    simp only [natToDec, decVal_natToDecCore] at hval
    omega
  have hnodup : ((List.range (used.length + 1)).map
      (fun k : Nat => pre ++ natToDec (start + k))).Nodup :=
    List.Nodup.map hinj (List.nodup_range _)
  have hsub : ((List.range (used.length + 1)).map
      (fun k : Nat => pre ++ natToDec (start + k))) ⊆ used := by
    intro x hx
    simp only [List.mem_map, List.mem_range] at hx
    obtain ⟨k, _, rfl⟩ := hx
    exact hall k
  have hlen := (List.subperm_of_subset hnodup hsub).length_le
  simp only [List.length_map, List.length_range] at hlen
  omega

theorem SymbolTable.is_free_of_not_mem_keys (st : SymbolTable) (name : String)
    (h : name ∉ st.table.map Prod.fst) : st.is_free_name name = true := by
  simp only [SymbolTable.is_free_name, pyContainsKey, Bool.not_eq_true']
  rw [List.any_eq_false]
  intro p hp hbeq
  exact h (List.mem_map.mpr ⟨p, hp, by simpa using hbeq⟩)

/-- The probe loop of `get_free_name` terminates: some index at or above
`start` yields a free name. -/
theorem SymbolTable.exists_free_probe_keys (st : SymbolTable) (pre : String) (start : Nat) :
    ∃ k, st.is_free_name (pre ++ natToDec (start + k)) = true := by
  obtain ⟨k, hk⟩ := exists_fresh_decName (st.table.map Prod.fst) pre start
  exact ⟨k, st.is_free_of_not_mem_keys _ hk⟩

/-- Source `get_free_name` (code_object.py lines 36-47): return the bare prefix if
free and reset its index to 0; otherwise probe `prefix + index` from the
last-issued index + 1 (or 0) until a free name is found, and record the
index.  The `var_type` argument is unused, as in the source. -/
def SymbolTable.get_free_name (st : SymbolTable) (var_type : Option MLFormat)
    (pre : String) : String × SymbolTable :=
  if st.is_free_name pre then
    (pre, { st with prefix_index := pyAssocSet pre 0 st.prefix_index })
  else
    let start : Nat :=
      match pyAssocGet? pre st.prefix_index with
      | some i => i + 1
      | none => 0
    let idx := start + Nat.find (st.exists_free_probe_keys pre start)
    (pre ++ natToDec idx, { st with prefix_index := pyAssocSet pre idx st.prefix_index })

/-! ### `MultiSymbolTable` (code_object.py lines 65-166)

Python `SymbolTable` objects are mutable and shared between scopes (the
`shared_tables` mechanism), so they live in an explicit heap: a `Store` is
a list of `SymbolTable`s and a table reference is an index into it.  A
`MultiSymbolTable` holds one reference per category plus the list of parent
`MultiSymbolTable`s used for free-name checks. -/

/-- Heap of `SymbolTable` objects. -/
abbrev Store := List SymbolTable

/-- Dereference a table (out-of-range references, which never occur in the
scenarios, read as an empty table). -/
def Store.read (s : Store) (r : Nat) : SymbolTable := s.getD r emptySymbolTable

/-- Update the table at reference `r`. -/
def Store.write (s : Store) (r : Nat) (t : SymbolTable) : Store := s.set r t

/-- Allocate a fresh `SymbolTable()` and return its reference. -/
def Store.alloc (s : Store) : Nat × Store := (s.length, s ++ [emptySymbolTable])

/-- The five symbol-tag classes of `MultiSymbolTable`. -/
inductive SymbolCategory where
  | ConstantSymbol
  | FunctionSymbol
  | VariableSymbol
  | ProtectedSymbol
  | TableSymbol
deriving DecidableEq, Repr

/-- Insertion order of the `table_list` dict in `MultiSymbolTable.__init__`,
used here as its iteration order (the dict's keys are the five class
objects, whose CPython hash is id-based; no claim proved below depends on
which of the 120 orders is real). -/
def categoryOrder : List SymbolCategory :=
  [.ConstantSymbol, .FunctionSymbol, .VariableSymbol, .ProtectedSymbol, .TableSymbol]

/-- Source `MultiSymbolTable`: five table references (constant, function, variable,
protected, table), the parent tables used for name-freeness checks, and the
per-prefix last-issued-index dict. -/
inductive MultiSymbolTable where
  | mk (constant_table function_table variable_table protected_table table_table : Nat)
       (parent_tables : List MultiSymbolTable)
       (prefix_index : List (String × Nat))

namespace MultiSymbolTable

def constant_table : MultiSymbolTable → Nat
  | .mk ct _ _ _ _ _ _ => ct

def function_table : MultiSymbolTable → Nat
  | .mk _ ft _ _ _ _ _ => ft

def variable_table : MultiSymbolTable → Nat
  | .mk _ _ vt _ _ _ _ => vt

def protected_table : MultiSymbolTable → Nat
  | .mk _ _ _ pt _ _ _ => pt

def table_table : MultiSymbolTable → Nat
  | .mk _ _ _ _ tt _ _ => tt

def parent_tables : MultiSymbolTable → List MultiSymbolTable
  | .mk _ _ _ _ _ ps _ => ps

def prefix_index : MultiSymbolTable → List (String × Nat)
  | .mk _ _ _ _ _ _ pi => pi

/-- The `table_list` dict: category tag → table reference. -/
def catRef (mst : MultiSymbolTable) : SymbolCategory → Nat
  | .ConstantSymbol => mst.constant_table
  | .FunctionSymbol => mst.function_table
  | .VariableSymbol => mst.variable_table
  | .ProtectedSymbol => mst.protected_table
  | .TableSymbol => mst.table_table

def setPrefixIndex : MultiSymbolTable → String → Nat → MultiSymbolTable
  | .mk ct ft vt pt tt ps pi, k, v => .mk ct ft vt pt tt ps (pyAssocSet k v pi)

end MultiSymbolTable

/-- Source `get_shared_table`: take the table shared by the caller when the tag is
present in `shared_tables`, otherwise allocate a fresh `SymbolTable()`. -/
def get_shared_table (s : Store) (shared_tables : List (SymbolCategory × Nat))
    (tag : SymbolCategory) : Nat × Store :=
  match pyAssocGet? tag shared_tables with
  | some r => (r, s)
  | none => s.alloc

/-- Source `MultiSymbolTable.__init__`: resolve or allocate the five category
tables (in source order: constant, function, variable, protected, table)
and record the parent tables. -/
def mkMultiSymbolTable (s : Store) (shared_tables : List (SymbolCategory × Nat))
    (parent_tables : List MultiSymbolTable) : MultiSymbolTable × Store :=
  let (ct, s1) := get_shared_table s shared_tables .ConstantSymbol
  let (ft, s2) := get_shared_table s1 shared_tables .FunctionSymbol
  let (vt, s3) := get_shared_table s2 shared_tables .VariableSymbol
  let (pt, s4) := get_shared_table s3 shared_tables .ProtectedSymbol
  let (tt, s5) := get_shared_table s4 shared_tables .TableSymbol
  (.mk ct ft vt pt tt parent_tables [], s5)

/-- Source `get_extended_dependency_table`: `self.parent_tables + [self]`. -/
def MultiSymbolTable.get_extended_dependency_table (mst : MultiSymbolTable) :
    List MultiSymbolTable :=
  mst.parent_tables ++ [mst]

mutual

/-- Source `MultiSymbolTable.is_free_name`: the name must be absent from all five
category tables and free in every parent table. -/
def MultiSymbolTable.is_free_name (s : Store) (mst : MultiSymbolTable) (name : String) : Bool :=
  match mst with
  | .mk ct ft vt pt tt parents _ =>
    (s.read ct).is_free_name name && (s.read ft).is_free_name name &&
    (s.read vt).is_free_name name && (s.read pt).is_free_name name &&
    (s.read tt).is_free_name name && parentsFreeName s parents name

/-- The `for table in self.parent_tables` loop of `is_free_name`. -/
def parentsFreeName (s : Store) (l : List MultiSymbolTable) (name : String) : Bool :=
  match l with
  | [] => true
  | p :: t => MultiSymbolTable.is_free_name s p name && parentsFreeName s t name

end

mutual

/-- All names visible from a `MultiSymbolTable`: the keys of its five
category tables and of every parent, recursively. -/
def MultiSymbolTable.allNames (s : Store) (mst : MultiSymbolTable) : List String :=
  match mst with
  | .mk ct ft vt pt tt parents _ =>
    (s.read ct).table.map Prod.fst ++ (s.read ft).table.map Prod.fst ++
    (s.read vt).table.map Prod.fst ++ (s.read pt).table.map Prod.fst ++
    (s.read tt).table.map Prod.fst ++ parentsAllNames s parents

def parentsAllNames (s : Store) (l : List MultiSymbolTable) : List String :=
  match l with
  | [] => []
  | p :: t => MultiSymbolTable.allNames s p ++ parentsAllNames s t

end

mutual

theorem MultiSymbolTable.is_free_of_not_mem (s : Store) (name : String) :
    ∀ mst : MultiSymbolTable, name ∉ MultiSymbolTable.allNames s mst →
      MultiSymbolTable.is_free_name s mst name = true
  | .mk ct ft vt pt tt parents pidx, h => by
    simp only [MultiSymbolTable.allNames, List.mem_append, not_or] at h
    obtain ⟨⟨⟨⟨⟨h1, h2⟩, h3⟩, h4⟩, h5⟩, h6⟩ := h
    simp only [MultiSymbolTable.is_free_name, Bool.and_eq_true]
    exact ⟨⟨⟨⟨⟨(s.read ct).is_free_of_not_mem_keys name h1,
      (s.read ft).is_free_of_not_mem_keys name h2⟩,
      (s.read vt).is_free_of_not_mem_keys name h3⟩,
      (s.read pt).is_free_of_not_mem_keys name h4⟩,
      (s.read tt).is_free_of_not_mem_keys name h5⟩,
      parentsFree_of_not_mem s name parents h6⟩

theorem parentsFree_of_not_mem (s : Store) (name : String) :
    ∀ l : List MultiSymbolTable, name ∉ parentsAllNames s l →
      parentsFreeName s l name = true
  | [], _ => rfl
  | p :: t, h => by
    simp only [parentsAllNames, List.mem_append, not_or] at h
    simp only [parentsFreeName, Bool.and_eq_true]
    exact ⟨MultiSymbolTable.is_free_of_not_mem s name p h.1,
      parentsFree_of_not_mem s name t h.2⟩

end

/-- The probe loop of `MultiSymbolTable.get_free_name` terminates. -/
theorem MultiSymbolTable.exists_free_probe (s : Store) (mst : MultiSymbolTable)
    (pre : String) (start : Nat) :
    ∃ k, MultiSymbolTable.is_free_name s mst (pre ++ natToDec (start + k)) = true := by
  obtain ⟨k, hk⟩ := exists_fresh_decName (MultiSymbolTable.allNames s mst) pre start
  exact ⟨k, MultiSymbolTable.is_free_of_not_mem s _ mst hk⟩

/-- Source `MultiSymbolTable.get_free_name` (code_object.py lines 128-139): same
algorithm as `SymbolTable.get_free_name` but freeness is checked across the
five category tables and all parent tables.  `var_type` is unused, as in
the source. -/
def MultiSymbolTable.get_free_name (s : Store) (mst : MultiSymbolTable)
    (var_type : Option MLFormat) (pre : String) : String × MultiSymbolTable :=
  if mst.is_free_name s pre then
    (pre, mst.setPrefixIndex pre 0)
  else
    let start : Nat :=
      match pyAssocGet? pre mst.prefix_index with
      | some i => i + 1
      | none => 0
    let idx := start + Nat.find (MultiSymbolTable.exists_free_probe s mst pre start)
    (pre ++ natToDec idx, mst.setPrefixIndex pre idx)

/-- Source `declare_function_name`. -/
def MultiSymbolTable.declare_function_name (s : Store) (mst : MultiSymbolTable)
    (function_name : String) (function_object : PyObj) : Store :=
  s.write mst.function_table
    ((s.read mst.function_table).declare_symbol function_name function_object)

/-- Source `declare_var_name`. -/
def MultiSymbolTable.declare_var_name (s : Store) (mst : MultiSymbolTable)
    (var_name : String) (var_object : PyObj) : Store :=
  s.write mst.variable_table
    ((s.read mst.variable_table).declare_symbol var_name var_object)

/-- Source `declare_cst_name`. -/
def MultiSymbolTable.declare_cst_name (s : Store) (mst : MultiSymbolTable)
    (cst_name : String) (cst_object : PyObj) : Store :=
  s.write mst.constant_table
    ((s.read mst.constant_table).declare_symbol cst_name cst_object)

/-- Source `declare_table_name`. -/
def MultiSymbolTable.declare_table_name (s : Store) (mst : MultiSymbolTable)
    (table_name : String) (table_object : PyObj) : Store :=
  s.write mst.table_table
    ((s.read mst.table_table).declare_symbol table_name table_object)

mutual

/-- Source `table_has_definition` (code_object.py lines 103-112): identity search
in the own table-table, then in each parent, first hit wins. -/
def MultiSymbolTable.table_has_definition (s : Store) (mst : MultiSymbolTable)
    (table_object : PyObj) : Option String :=
  match mst with
  | .mk _ _ _ _ tt parents _ =>
    match (s.read tt).has_definition table_object with
    | some table_key => some table_key
    | none => parentsTableDef s parents table_object

/-- The `for table in self.parent_tables` loop of `table_has_definition`. -/
def parentsTableDef (s : Store) (l : List MultiSymbolTable) (table_object : PyObj) :
    Option String :=
  match l with
  | [] => none
  | p :: t =>
    match MultiSymbolTable.table_has_definition s p table_object with
    | some table_name => some table_name
    | none => parentsTableDef s t table_object

end

/-- Source `generate_declarations` (code_object.py lines 160-166): concatenate the
declarations of every category table not in the exclusion list. -/
def MultiSymbolTable.generate_declarations (s : Store) (mst : MultiSymbolTable)
    (cg : CodeGenerator) (exclusion_list : List SymbolCategory) : String :=
  categoryOrder.foldl
    (fun acc c =>
      if c ∈ exclusion_list then acc
      else acc ++ (s.read (mst.catRef c)).generate_declaration cg)
    ""

/-! ### The `is_empty` bug (code_object.py lines 141-142)

`is_empty` is `reduce(lambda acc, v: acc + len(v), self.table_list) == 0`.
Iterating the `table_list` dict yields its *keys* — the five old-style
symbol-tag classes — and `reduce` without an initializer starts with the
first key as accumulator, then evaluates `len(<class>)`, which raises
`TypeError` in Python 2. -/

/-- Python error kinds raised by the embedded fragments.
`unboundLocal` models `UnboundLocalError`, a subclass of `NameError`. -/
inductive PyErr where
  | typeError
  | attributeError
  | unboundLocal
deriving DecidableEq, Repr

/-- A value flowing through the `reduce` of `is_empty`: ints and the
symbol-tag class objects. -/
inductive PyVal where
  | int (n : Nat)
  | classTag (c : SymbolCategory)
deriving DecidableEq, Repr

/-- Python 2 `len(v)` for such a value: neither an int nor an old-style
class object supports `len()`, so it raises `TypeError`. -/
def pyLenV : PyVal → Except PyErr Nat
  | _ => .error .typeError

/-- One `reduce` step `acc + len(v)`: `len(v)` is evaluated first. -/
def pyAddLen (acc v : PyVal) : Except PyErr PyVal := do
  let n ← pyLenV v
  match acc with
  | .int m => pure (.int (m + n))
  | .classTag _ => throw .typeError

/-- Source `reduce(lambda acc, v: acc + len(v), ·)` with the first element as the
initial accumulator. -/
def pyReduceAddLen (acc : PyVal) : List PyVal → Except PyErr PyVal
  | [] => pure acc
  | v :: t => do pyReduceAddLen (← pyAddLen acc v) t

/-- Source `is_empty`: reduce over the keys of `table_list` and compare to 0.
The keys are the five symbol-tag classes whatever the table contents
(any iteration order of the dict gives the same outcome). -/
def MultiSymbolTable.is_empty (mst : MultiSymbolTable) : Except PyErr Bool :=
  match categoryOrder.map PyVal.classTag with
  | [] => throw .typeError
  | k :: rest => do
    let r ← pyReduceAddLen k rest
    pure (match r with
      | .int n => n == 0
      | .classTag _ => false)

/-! ### `CodeObject` (code_object.py lines 176-291) -/

/-- A `CodeObject`: the accumulated text, the indentation level, the header
list and the scope's `MultiSymbolTable`. -/
structure CodeObject where
  expanded_code : String
  tablevel : Int
  header_list : List String
  symbol_table : MultiSymbolTable
  language : Language

/-- Source `CodeObject.tab`. -/
def CodeObject.tab : String := "    "

/-- Source `self.tablevel * CodeObject.tab` (a negative level yields `""`, as for
Python's string repetition). -/
def indentStr (lvl : Int) : String := String.join (List.replicate lvl.toNat CodeObject.tab)

/-- Source `re.sub("\n", "\n" + indent, added_code)`: the pattern is the single
newline character, so every newline is followed by the indent string. -/
def reSubNewline (indent added : String) : String :=
  ⟨added.data.foldr (fun c acc => if c = '\n' then '\n' :: (indent.data ++ acc) else c :: acc) []⟩

/-- Source `CodeObject.__init__`. -/
def mkCodeObject (s : Store) (language : Language)
    (shared_tables : List (SymbolCategory × Nat))
    (parent_tables : List MultiSymbolTable) : CodeObject × Store :=
  let (mst, s1) := mkMultiSymbolTable s shared_tables parent_tables
  ({ expanded_code := "", tablevel := 0, header_list := [], symbol_table := mst, language }, s1)

namespace CodeObject

/-- Source `__lshift__`: append `added_code` with every newline re-indented to the
current level. -/
def lshift (co : CodeObject) (added_code : String) : CodeObject :=
  { co with expanded_code :=
      co.expanded_code ++ reSubNewline (indentStr co.tablevel) added_code }

/-- Source `inc_level`. -/
def inc_level (co : CodeObject) : CodeObject :=
  { co with tablevel := co.tablevel + 1, expanded_code := co.expanded_code ++ CodeObject.tab }

/-- Source `dec_level`: decrement the level and delete a trailing tab if present. -/
def dec_level (co : CodeObject) : CodeObject :=
  let d := co.expanded_code.data
  let stripped : String :=
    if d.drop (d.length - 4) = CodeObject.tab.data then ⟨d.take (d.length - 4)⟩
    else co.expanded_code
  { co with tablevel := co.tablevel - 1, expanded_code := stripped }

/-- Source `open_level`: `self << "{\n"` then `inc_level`. -/
def open_level (co : CodeObject) : CodeObject := (co.lshift "\x7b\n").inc_level

/-- Source `close_level`: `dec_level` then `self << "}%s" % cr`. -/
def close_level (co : CodeObject) (cr : String) : CodeObject :=
  co.dec_level.lshift ("\x7d" ++ cr)

/-- Source `add_header`: append the header file if not already present. -/
def add_header (co : CodeObject) (header_file : String) : CodeObject :=
  if header_file ∈ co.header_list then co
  else { co with header_list := co.header_list ++ [header_file] }

/-- Source `generate_header_code`: the metalibm version banner (the version number
and git sha come from the external `utility.version_info` module and are
passed as arguments) followed by one `#include` per header. -/
def generate_header_code (co : CodeObject) (version_num git_sha : String)
    (git_tag : Bool) : String :=
  (if git_tag then
    "/** generated using metalibm " ++ version_num ++ " \n * sha1 git: " ++ git_sha ++ " **/\n"
  else "")
  ++ String.join (co.header_list.map (fun h => "#include <" ++ h ++ ">\n"))

/-- Source `CodeObject.table_has_definition`. -/
def table_has_definition (s : Store) (co : CodeObject) (table_object : PyObj) :
    Option String :=
  co.symbol_table.table_has_definition s table_object

/-- Source `declare_cst` (code_object.py lines 252-256): allocate a free name and
declare the constant under it. -/
def declare_cst (s : Store) (co : CodeObject) (cst_object : PyObj) (pre : String) :
    String × CodeObject × Store :=
  let (free_var_name, mst1) := co.symbol_table.get_free_name s cst_object.precision pre
  let s1 := mst1.declare_cst_name s free_var_name cst_object
  (free_var_name, { co with symbol_table := mst1 }, s1)

/-- Source `declare_table` (code_object.py lines 258-265): reuse the name of an
identical already-declared table object, else allocate and declare. -/
def declare_table (s : Store) (co : CodeObject) (table_object : PyObj) (pre : String) :
    String × CodeObject × Store :=
  match co.symbol_table.table_has_definition s table_object with
  | some table_name => (table_name, co, s)
  | none =>
    let (free_var_name, mst1) :=
      co.symbol_table.get_free_name s table_object.storage_precision pre
    let s1 := mst1.declare_table_name s free_var_name table_object
    (free_var_name, { co with symbol_table := mst1 }, s1)

/-- Source `declare_function`. -/
def declare_function (s : Store) (co : CodeObject) (function_name : String)
    (function_object : PyObj) : String × Store :=
  (function_name, co.symbol_table.declare_function_name s function_name function_object)

/-- Source `CodeObject.get` (code_object.py lines 273-287): optional header
banner, then the non-excluded declarations, a separating newline when
anything was produced, then the accumulated code. -/
def get (s : Store) (co : CodeObject) (cg : CodeGenerator) (version_num git_sha : String)
    (static_cst static_table headers skip_function : Bool) : String :=
  let result0 := if headers then co.generate_header_code version_num git_sha true ++ "\n\n" else ""
  let exclusion_list : List SymbolCategory :=
    (if static_cst then [.ConstantSymbol] else [])
    ++ (if static_table then [.TableSymbol] else [])
    ++ (if skip_function then [.FunctionSymbol] else [])
  let result1 := result0 ++ co.symbol_table.generate_declarations s cg exclusion_list
  (result1 ++ (if result1 ≠ "" then "\n" else "")) ++ co.expanded_code

end CodeObject

/-! ### `NestedCode` (code_object.py lines 358-429) -/

/-- Source `NestedCode`: the static tables, the sharing flags and the stack of
open `CodeObject`s (innermost first). -/
structure NestedCode where
  language : Language
  code_generator : CodeGenerator
  static_cst_table : Nat
  static_table_table : Nat
  static_function_table : Nat
  static_cst : Bool
  static_table : Bool
  code_list : List CodeObject

namespace NestedCode

/-- Source `get_cst_table`: the static constant table if `static_cst`, else a
fresh `SymbolTable()`. -/
def get_cst_table (nc : NestedCode) (s : Store) : Nat × Store :=
  if nc.static_cst then (nc.static_cst_table, s) else s.alloc

/-- Source `get_table_table`. -/
def get_table_table (nc : NestedCode) (s : Store) : Nat × Store :=
  if nc.static_table then (nc.static_table_table, s) else s.alloc

/-- Source `get_function_table`: always the static function table. -/
def get_function_table (nc : NestedCode) (s : Store) : Nat × Store :=
  (nc.static_function_table, s)

end NestedCode

/-- Source `NestedCode.__init__`: allocate the three static tables, build the
shared-table dict (constant, table, function — in source order) and open
the main `CodeObject` with it. -/
def mkNestedCode (s : Store) (code_generator : CodeGenerator)
    (static_cst static_table : Bool) : NestedCode × Store :=
  let (cstRef, s1) := s.alloc
  let (tblRef, s2) := s1.alloc
  let (fctRef, s3) := s2.alloc
  let nc0 : NestedCode :=
    { language := code_generator.language, code_generator,
      static_cst_table := cstRef, static_table_table := tblRef,
      static_function_table := fctRef, static_cst, static_table, code_list := [] }
  let (shCst, s4) := nc0.get_cst_table s3
  let (shTbl, s5) := nc0.get_table_table s4
  let (shFct, s6) := nc0.get_function_table s5
  let shared : List (SymbolCategory × Nat) :=
    [(.ConstantSymbol, shCst), (.TableSymbol, shTbl), (.FunctionSymbol, shFct)]
  let (main_code, s7) := mkCodeObject s6 code_generator.language shared []
  ({ nc0 with code_list := [main_code] }, s7)

namespace NestedCode

/-- Source `__lshift__`: forward to the innermost `CodeObject` (the stack is never
empty in the source). -/
def lshift (nc : NestedCode) (added_code : String) : NestedCode :=
  match nc.code_list with
  | [] => nc
  | c :: rest => { nc with code_list := c.lshift added_code :: rest }

/-- Source `open_level` (code_object.py lines 401-409): emit `{`, compute the
extended dependency list of the current scope, rebuild the shared tables
and push a new `CodeObject`. -/
def open_level (s : Store) (nc : NestedCode) : NestedCode × Store :=
  match nc.code_list with
  | [] => (nc, s)
  | c :: rest =>
    let c1 := c.open_level
    let parent_tables := c1.symbol_table.get_extended_dependency_table
    let (shCst, s1) := nc.get_cst_table s
    let (shTbl, s2) := nc.get_table_table s1
    let (shFct, s3) := nc.get_function_table s2
    let shared : List (SymbolCategory × Nat) :=
      [(.ConstantSymbol, shCst), (.TableSymbol, shTbl), (.FunctionSymbol, shFct)]
    let (inner, s4) := mkCodeObject s3 nc.language shared parent_tables
    ({ nc with code_list := inner :: c1 :: rest }, s4)

/-- Source `close_level` (code_object.py lines 411-414): pop the innermost scope,
render it (its shared categories excluded, `skip_function=True`,
no headers — so the version-banner arguments are irrelevant) into the
parent, then emit the parent's closing brace. -/
def close_level (s : Store) (nc : NestedCode) (cr : String) : NestedCode × Store :=
  match nc.code_list with
  | [] => (nc, s)
  | level_code :: rest =>
    let text := level_code.get s nc.code_generator "" "" nc.static_cst nc.static_table false true
    let nc1 := NestedCode.lshift { nc with code_list := rest } text
    match nc1.code_list with
    | [] => (nc1, s)
    | c :: t => ({ nc1 with code_list := c.close_level cr :: t }, s)

/-- Source `NestedCode.declare_cst`: forward to the innermost scope. -/
def declare_cst (s : Store) (nc : NestedCode) (cst_object : PyObj) (pre : String) :
    String × NestedCode × Store :=
  match nc.code_list with
  | [] => ("", nc, s)
  | c :: rest =>
    let (n, c1, s1) := CodeObject.declare_cst s c cst_object pre
    (n, { nc with code_list := c1 :: rest }, s1)

/-- Source `NestedCode.declare_table`: forward to the innermost scope. -/
def declare_table (s : Store) (nc : NestedCode) (table_object : PyObj) (pre : String) :
    String × NestedCode × Store :=
  match nc.code_list with
  | [] => ("", nc, s)
  | c :: rest =>
    let (n, c1, s1) := CodeObject.declare_table s c table_object pre
    (n, { nc with code_list := c1 :: rest }, s1)

/-- Source `NestedCode.get`: render the outermost scope with headers and no
exclusions. -/
def get (s : Store) (nc : NestedCode) (version_num git_sha : String) : String :=
  match nc.code_list with
  | [] => ""
  | c :: _ => c.get s nc.code_generator version_num git_sha false false true false

end NestedCode

/-! ### Operation trees and the VHDL backend modifiers
(vhdl_backend.py lines 46-54 and 115-122) -/

/-- Operation kinds appearing in the embedded modifiers. -/
inductive OpKind where
  | Addition
  | BitLogicNegate
  | Negation
  | Constant (value : Int)
  | Concatenation
  | Replication
  | VectorElementSelection
  | ZeroExt
deriving DecidableEq, Repr

/-- An operation node: kind, ordered children, result precision, tag, and
the optional `ext_size` attribute carried by extension nodes. -/
inductive OpTree where
  | node (kind : OpKind) (inputs : List OpTree) (precision : Option MLFormat)
         (tag : Option String) (ext_size : Option Nat)

namespace OpTree

def kind : OpTree → OpKind
  | .node k _ _ _ _ => k

def inputs : OpTree → List OpTree
  | .node _ i _ _ _ => i

def get_precision : OpTree → Option MLFormat
  | .node _ _ p _ _ => p

def get_tag : OpTree → Option String
  | .node _ _ _ t _ => t

def ext_size : OpTree → Option Nat
  | .node _ _ _ _ e => e

/-- Source `optree.get_input(i)`. -/
def get_input (t : OpTree) (i : Nat) : Option OpTree := t.inputs.get? i

end OpTree

/-- Source `negation_modifer` (vhdl_backend.py lines 46-54): rewrite `Negation(x)`
into `Addition(BitLogicNegate(x), Constant(1, ML_StdLogic))`, both the
`BitLogicNegate` and the `Addition` carrying the original node's precision
and the `Addition` carrying its tag.  `none` models the `IndexError` raised
on a node without inputs. -/
def negation_modifer (optree : OpTree) : Option OpTree :=
  match optree.get_input 0 with
  | none => none
  | some neg_input =>
    let precision := optree.get_precision
    some (.node .Addition
      [.node .BitLogicNegate [neg_input] precision none none,
       .node (.Constant 1) [] (some .ML_StdLogic) none none]
      precision optree.get_tag none)

/-- Source `get_bit_size()` of a format; only the std_logic_vector format carries
an explicit bit size here (the other cases are unreached below). -/
def MLFormat.get_bit_size : MLFormat → Except PyErr Nat
  | .ML_StdLogicVectorFormat n => .ok n
  | _ => .error .attributeError

/-- Source `get_bit_size()` called on the result of `get_precision()` (calling a
method on Python `None` raises `AttributeError`). -/
def optGetBitSize : Option MLFormat → Except PyErr Nat
  | none => .error .attributeError
  | some f => f.get_bit_size

/-- Source `sext_modifier` (vhdl_backend.py lines 115-122), statement by statement.
Line 117 computes `ML_StdLogicVectorFormat(ext_size +
ext_input.get_precision().get_bit_size())` but the local `ext_input` is
first assigned on line 118, so that read raises `UnboundLocalError` (a
`NameError`) and everything after it is dead code. -/
def sext_modifier (optree : OpTree) : Except PyErr OpTree := do
  let ext_size ← match optree.ext_size with
    | some v => Except.ok v
    | none => Except.error PyErr.attributeError
  let ext_input_preread : Option OpTree := none
  let ext_input0 ← match ext_input_preread with
    | some v => Except.ok v
    | none => Except.error PyErr.unboundLocal
  let bs ← optGetBitSize ext_input0.get_precision
  let ext_precision := MLFormat.ML_StdLogicVectorFormat (ext_size + bs)
  let ext_input ← match optree.get_input 0 with
    | some v => Except.ok v
    | none => Except.error PyErr.attributeError
  let op_size ← optGetBitSize ext_input.get_precision
  let sign_digit := OpTree.node .VectorElementSelection
    [ext_input, .node (.Constant ((op_size : Int) - 1)) [] (some .ML_Integer) none none]
    (some .ML_StdLogic) none none
  let precision := MLFormat.ML_StdLogicVectorFormat ext_size
  pure (OpTree.node .Concatenation
    [.node .Replication [sign_digit] (some precision) none none, optree]
    (some ext_precision) optree.get_tag none)

/-! ### Backend specialization (vhdl_backend.py lines 417-442) -/

/-- The code-generation table objects of vhdl_backend.py, by identity:
`formal_generation_table`, `vhdl_code_generation_table` and the empty
Gappa table. -/
inductive CodeGenTableId where
  | formal_generation_table
  | vhdl_code_generation_table
  | empty_table
deriving DecidableEq, Repr

/-- Source `FormalBackend.code_generation_table`: VHDL and C both map to
`formal_generation_table`, Gappa to an empty table. -/
def FormalBackend_code_generation_table : List (Language × CodeGenTableId) :=
  [(.VHDL_Code, .formal_generation_table),
   (.C_Code, .formal_generation_table),
   (.Gappa_Code, .empty_table)]

/-- Source `VHDLBackend.code_generation_table`: VHDL maps to
`vhdl_code_generation_table`, Gappa to an empty table; there is no C
entry. -/
def VHDLBackend_code_generation_table : List (Language × CodeGenTableId) :=
  [(.VHDL_Code, .vhdl_code_generation_table),
   (.Gappa_Code, .empty_table)]

/-- The two backends: `class FormalBackend(AbstractBackend)` and
`class VHDLBackend(FormalBackend)`. -/
inductive BackendId where
  | FormalBackend
  | VHDLBackend
deriving DecidableEq, Repr

/-- Modelled from the spec: the per-language table-lookup chain of the
backend resolution machinery (`abstract_backend.py`, which is not under
src/) — "resolution for a node always uses the most specialized backend's
table for the requested entry if present, else falls back to the table of
the backend it specializes".  The chain lists each backend's own
`code_generation_table` dict from most to least specialized. -/
def backendTableChain : BackendId → List (List (Language × CodeGenTableId))
  | .FormalBackend => [FormalBackend_code_generation_table]
  | .VHDLBackend => [VHDLBackend_code_generation_table, FormalBackend_code_generation_table]

/-- Modelled from the spec: look a language up along the specialization
chain, first hit wins. -/
def resolve_language_table (b : BackendId) (lang : Language) : Option CodeGenTableId :=
  (backendTableChain b).findSome? (fun tbl => pyAssocGet? lang tbl)

/-! ### Helper lemmas about the free-name allocator and the store -/

/-- The name returned by `MultiSymbolTable.get_free_name` is free — absent
from all five category tables and from every ancestor — at call time. -/
theorem MultiSymbolTable.get_free_name_is_free (s : Store) (mst : MultiSymbolTable)
    (vt : Option MLFormat) (pre : String) :
    mst.is_free_name s (mst.get_free_name s vt pre).1 = true := by
  unfold MultiSymbolTable.get_free_name
  by_cases h : mst.is_free_name s pre = true
  · simp [h]
  · rw [Bool.not_eq_true] at h
    simp only [h, Bool.false_eq_true, if_false]
    exact Nat.find_spec (MultiSymbolTable.exists_free_probe s mst pre _)

/-- Evaluation rule for the probing branch of `get_free_name`: when the
bare prefix is taken and the very first probed index is free, that index is
returned. -/
theorem MultiSymbolTable.get_free_name_probe_eq (s : Store) (mst : MultiSymbolTable)
    (vt : Option MLFormat) (pre : String) (start : Nat)
    (hnot : mst.is_free_name s pre = false)
    (hstart : (match pyAssocGet? pre mst.prefix_index with
      | some i => i + 1 | none => 0) = start)
    (hfree : mst.is_free_name s (pre ++ natToDec start) = true) :
    mst.get_free_name s vt pre = (pre ++ natToDec start, mst.setPrefixIndex pre start) := by
  unfold MultiSymbolTable.get_free_name
  simp only [hnot, Bool.false_eq_true, if_false, hstart]
  have h0 : Nat.find (MultiSymbolTable.exists_free_probe s mst pre start) = 0 :=
    (Nat.find_eq_zero _).mpr (by simpa using hfree)
  rw [h0]
  simp

theorem Store.read_write_self (s : Store) (r : Nat) (t : SymbolTable) (h : r < s.length) :
    (s.write r t).read r = t := by
  simp [Store.read, Store.write, List.getD, List.getElem?_set_self h]

theorem Store.read_write_ne (s : Store) (r r' : Nat) (t : SymbolTable) (h : r ≠ r') :
    (s.write r t).read r' = s.read r' := by
  simp [Store.read, Store.write, List.getElem?_set_ne h]

/-- Source `setPrefixIndex` touches only the `prefix_index` field. -/
theorem MultiSymbolTable.setPrefixIndex_fields (mst : MultiSymbolTable) (k : String) (v : Nat) :
    (mst.setPrefixIndex k v).constant_table = mst.constant_table ∧
    (mst.setPrefixIndex k v).function_table = mst.function_table ∧
    (mst.setPrefixIndex k v).variable_table = mst.variable_table ∧
    (mst.setPrefixIndex k v).protected_table = mst.protected_table ∧
    (mst.setPrefixIndex k v).table_table = mst.table_table ∧
    (mst.setPrefixIndex k v).parent_tables = mst.parent_tables := by
  cases mst
  simp [MultiSymbolTable.setPrefixIndex, MultiSymbolTable.constant_table,
    MultiSymbolTable.function_table, MultiSymbolTable.variable_table,
    MultiSymbolTable.protected_table, MultiSymbolTable.table_table,
    MultiSymbolTable.parent_tables]

/-- The updated `MultiSymbolTable` returned by `get_free_name` keeps the
same table references and parents. -/
theorem MultiSymbolTable.get_free_name_snd_fields (s : Store) (mst : MultiSymbolTable)
    (vt : Option MLFormat) (pre : String) :
    ((mst.get_free_name s vt pre).2.constant_table = mst.constant_table ∧
     (mst.get_free_name s vt pre).2.function_table = mst.function_table ∧
     (mst.get_free_name s vt pre).2.variable_table = mst.variable_table ∧
     (mst.get_free_name s vt pre).2.protected_table = mst.protected_table ∧
     (mst.get_free_name s vt pre).2.table_table = mst.table_table ∧
     (mst.get_free_name s vt pre).2.parent_tables = mst.parent_tables) := by
  unfold MultiSymbolTable.get_free_name
  by_cases h : mst.is_free_name s pre = true
  · simp only [h, if_true]
    exact mst.setPrefixIndex_fields pre 0
  · rw [Bool.not_eq_true] at h
    simp only [h, Bool.false_eq_true, if_false]
    exact mst.setPrefixIndex_fields pre _

/-- A name free in a `MultiSymbolTable` is in particular absent from its
own table-category table. -/
theorem MultiSymbolTable.is_free_name_table_component (s : Store) (mst : MultiSymbolTable)
    (name : String) (h : mst.is_free_name s name = true) :
    (s.read mst.table_table).is_free_name name = true := by
  cases mst with
  | mk ct ft vt pt tt parents pi =>
    simp only [MultiSymbolTable.is_free_name, Bool.and_eq_true] at h
    simpa [MultiSymbolTable.table_table] using h.1.2

/-- Source `findSome?` over a list with exactly one hit returns that hit. -/
theorem List.findSome?_single {α β : Type} {l : List α} {f : α → Option β} {x : α} {b : β}
    (hmem : x ∈ l) (hx : f x = some b) (hothers : ∀ y ∈ l, y ≠ x → f y = none) :
    l.findSome? f = some b := by
  induction l with
  | nil => cases hmem
  | cons a t ih =>
    rw [List.findSome?_cons]
    rcases List.mem_cons.mp hmem with rfl | hmem'
    · rw [hx]
    · by_cases hax : a = x
      · subst hax; rw [hx]
      · rw [hothers a (List.mem_cons_self a t) hax]
        exact ih hmem' (fun y hy => hothers y (List.mem_cons_of_mem a hy))

/-- Source `has_definition` misses an object that no entry is identical to. -/
theorem SymbolTable.has_definition_eq_none (st : SymbolTable) (obj : PyObj)
    (h : ∀ p ∈ st.table, p.2.isSame obj = false) :
    st.has_definition obj = none := by
  unfold SymbolTable.has_definition
  rw [List.findSome?_eq_none_iff]
  intro p hp
  rw [h p ((pyDictIter_perm st.table).mem_iff.mp hp)]
  simp

/-- Source `has_definition` finds the single entry identical to the object. -/
theorem SymbolTable.has_definition_eq_some (st : SymbolTable) (obj : PyObj)
    (k : String) (v : PyObj) (hmem : (k, v) ∈ st.table) (hsame : v.isSame obj = true)
    (hothers : ∀ p ∈ st.table, p ≠ (k, v) → p.2.isSame obj = false) :
    st.has_definition obj = some k := by
  unfold SymbolTable.has_definition
  refine List.findSome?_single ((pyDictIter_perm st.table).mem_iff.mpr hmem) ?_ ?_
  · simp [hsame]
  · intro y hy hne
    rw [hothers y ((pyDictIter_perm st.table).mem_iff.mp hy) hne]
    simp

/-! ### Scenario: three free-name requests in an empty scope
(spec Scenario B; claims C1 and C2) -/

/-- A store with five empty tables, references 0-4. -/
def scnStore0 : Store :=
  [emptySymbolTable, emptySymbolTable, emptySymbolTable, emptySymbolTable, emptySymbolTable]

/-- An empty scope: the five category tables in declaration order, no
parents. -/
def scnMst0 : MultiSymbolTable := .mk 0 1 2 3 4 [] []

/-- First request for prefix `"tmp"`. -/
def c1_call1 : String × MultiSymbolTable :=
  MultiSymbolTable.get_free_name scnStore0 scnMst0 none "tmp"

/-- Declare the first returned name (as a variable, the way
`get_free_var_name` would). -/
def c1_store1 : Store :=
  MultiSymbolTable.declare_var_name scnStore0 c1_call1.2 c1_call1.1 ⟨100, none, none⟩

/-- Second request. -/
def c1_call2 : String × MultiSymbolTable :=
  MultiSymbolTable.get_free_name c1_store1 c1_call1.2 none "tmp"

/-- Declare the second returned name. -/
def c1_store2 : Store :=
  MultiSymbolTable.declare_var_name c1_store1 c1_call2.2 c1_call2.1 ⟨101, none, none⟩

/-- Third request. -/
def c1_call3 : String × MultiSymbolTable :=
  MultiSymbolTable.get_free_name c1_store2 c1_call2.2 none "tmp"

theorem c1_call2_eq : c1_call2 = ("tmp1", c1_call1.2.setPrefixIndex "tmp" 1) :=
  MultiSymbolTable.get_free_name_probe_eq c1_store1 c1_call1.2 none "tmp" 1
    (by decide) (by decide) (by decide)

theorem c1_call3_eq : c1_call3 = ("tmp2", c1_call2.2.setPrefixIndex "tmp" 2) := by
  have h3 := MultiSymbolTable.get_free_name_probe_eq c1_store2 c1_call2.2 none "tmp" 2
    ?_ ?_ ?_
  · exact h3
  · rw [show c1_store2 = MultiSymbolTable.declare_var_name c1_store1 c1_call2.2 c1_call2.1
        ⟨101, none, none⟩ from rfl,
      show c1_call2.2 = c1_call1.2.setPrefixIndex "tmp" 1 from congrArg Prod.snd c1_call2_eq,
      show c1_call2.1 = "tmp1" from congrArg Prod.fst c1_call2_eq]
    decide
  · rw [show c1_call2.2 = c1_call1.2.setPrefixIndex "tmp" 1 from congrArg Prod.snd c1_call2_eq]
    decide
  · rw [show c1_store2 = MultiSymbolTable.declare_var_name c1_store1 c1_call2.2 c1_call2.1
        ⟨101, none, none⟩ from rfl,
      show c1_call2.2 = c1_call1.2.setPrefixIndex "tmp" 1 from congrArg Prod.snd c1_call2_eq,
      show c1_call2.1 = "tmp1" from congrArg Prod.fst c1_call2_eq]
    decide

/-- Claim C1 (counterexample): in an empty scope, requesting prefix "tmp",
declaring the returned name, then requesting again yields "tmp1" — not
"tmp0" as the claim states — because the bare-prefix branch records index
0 and the next probe starts at the recorded index + 1. -/
theorem scenarioB_second_name_is_tmp1_not_tmp0 :
    c1_call1.1 = "tmp" ∧ c1_call2.1 = "tmp1" ∧ c1_call2.1 ≠ "tmp0" := by
  refine ⟨rfl, congrArg Prod.fst c1_call2_eq, ?_⟩
  rw [congrArg Prod.fst c1_call2_eq]
  decide

/-- Claim C1 (amended): requesting a free name with prefix "tmp" three
times in an empty scope, declaring each returned name before the next
request, yields "tmp", then "tmp1", then "tmp2": issuing the bare prefix
sets its index counter to 0 and the next probe starts at counter + 1, so
index 0 is skipped. -/
theorem scenarioB_free_name_sequence :
    c1_call1.1 = "tmp" ∧ c1_call2.1 = "tmp1" ∧ c1_call3.1 = "tmp2" :=
  ⟨rfl, congrArg Prod.fst c1_call2_eq, congrArg Prod.fst c1_call3_eq⟩

/-- Claim C2 (counterexample): without declaring the first returned name,
two successive `get_free_name` calls on an empty scope both return the bare
prefix "tmp", refuting the unconditional claim that two calls within one
scope's lifetime never return the same name. -/
theorem get_free_name_repeats_bare_prefix_without_declare :
    c1_call1.1 = "tmp" ∧
    (MultiSymbolTable.get_free_name scnStore0 c1_call1.2 none "tmp").1 = "tmp" := by
  exact ⟨rfl, rfl⟩

/-- Claim C2 (amended): `get_free_name` never returns a name present at
call time in any of the scope's five category tables or in any ancestor
scope's tables; consequently, if a returned name has been declared (so it
is no longer free) before a later call, that later call returns a
different name.  (Without the declaration the same bare prefix can be
returned twice, see the counterexample.) -/
theorem get_free_name_unused_and_distinct_when_declared (s : Store)
    (mst : MultiSymbolTable) (vt : Option MLFormat) (pre : String) :
    mst.is_free_name s (mst.get_free_name s vt pre).1 = true ∧
    (∀ (s' : Store) (mst' : MultiSymbolTable) (vt' : Option MLFormat) (pre' : String),
      mst'.is_free_name s' (mst.get_free_name s vt pre).1 = false →
      (mst'.get_free_name s' vt' pre').1 ≠ (mst.get_free_name s vt pre).1) := by
  refine ⟨MultiSymbolTable.get_free_name_is_free s mst vt pre, ?_⟩
  intro s' mst' vt' pre' hdecl heq
  have hfree := MultiSymbolTable.get_free_name_is_free s' mst' vt' pre'
  rw [heq, hdecl] at hfree
  cases hfree

/-- Witness for C2: instantiated on the Scenario-B states — after "tmp" is
declared, it is no longer free, and a further call returns a different
name. -/
theorem get_free_name_unused_and_distinct_when_declared_witness :
    MultiSymbolTable.is_free_name c1_store1 c1_call1.2
      (MultiSymbolTable.get_free_name scnStore0 scnMst0 none "tmp").1 = false ∧
    (MultiSymbolTable.get_free_name c1_store1 c1_call1.2 none "tmp").1 ≠
      (MultiSymbolTable.get_free_name scnStore0 scnMst0 none "tmp").1 :=
  ⟨by decide,
   (get_free_name_unused_and_distinct_when_declared scnStore0 scnMst0 none "tmp").2
     c1_store1 c1_call1.2 none "tmp" (by decide)⟩

/-! ### Claim C4: declaration emission order -/

/-- A demonstration code generator rendering `name;`. -/
def demoCg : CodeGenerator := ⟨.C_Code, fun n _ => n ++ ";"⟩

/-- A table in which `"b"` (object 1) is declared before `"a"` (object 2).
CPython 2.7 places `"a"` in dict slot 0 and `"b"` in slot 3. -/
def c4_table : SymbolTable :=
  (emptySymbolTable.declare_symbol "b" ⟨1, none, none⟩).declare_symbol "a" ⟨2, none, none⟩

/-- Claim C4 (counterexample): the entity declared under `"b"` was declared
before the entity declared under `"a"`, yet `generate_declaration` emits
`"a;"` before `"b;"` — the Python-2 dict iterates in hash-slot order
(slot("a") = 0, slot("b") = 3), not in first-declared order. -/
theorem generate_declaration_not_first_declared_order :
    c4_table.table.map Prod.fst = ["b", "a"] ∧
    c4_table.generate_declaration demoCg = "a;" ++ "b;" ∧
    pySlot "a" = 0 ∧ pySlot "b" = 3 := by
  refine ⟨by decide, by decide, by decide, by decide⟩

/-- Claim C4 (amended): `generate_declaration` emits the declaration of
every declared entity of the table exactly once — the emitted sequence is
a permutation of the declared entries — but in the dict's hash-determined
iteration order, which need not be the first-declared order. -/
theorem generate_declaration_emits_each_entry_once (st : SymbolTable) (cg : CodeGenerator) :
    ∃ l : List (String × PyObj), l.Perm st.table ∧
      st.generate_declaration cg =
        l.foldl (fun acc p => acc ++ cg.gen_declaration p.1 p.2) "" :=
  ⟨pyDictIter st.table, pyDictIter_perm st.table, rfl⟩

/-! ### Claim C6: backend-table specialization chain -/

/-- Claim C6: resolving a language against `VHDLBackend` uses its own
`code_generation_table` entry when present (`VHDL_Code` →
`vhdl_code_generation_table`) and otherwise falls back to the backend it
specializes: a `C_Code` lookup resolves to `FormalBackend`'s
`formal_generation_table`. -/
theorem vhdl_backend_c_code_falls_back_to_formal :
    resolve_language_table .VHDLBackend .C_Code = some .formal_generation_table ∧
    resolve_language_table .VHDLBackend .VHDL_Code = some .vhdl_code_generation_table ∧
    resolve_language_table .FormalBackend .C_Code = some .formal_generation_table := by
  refine ⟨rfl, rfl, rfl⟩

/-! ### Claim C9: `is_empty` always raises `TypeError` -/

/-- Claim C9: `MultiSymbolTable.is_empty` never returns a value: for every
`MultiSymbolTable` it raises `TypeError`, because the un-initialized
`reduce` iterates the keys of `table_list` (the five symbol-tag class
objects) and applies `len` to a class object. -/
theorem is_empty_always_raises_typeError (mst : MultiSymbolTable) :
    mst.is_empty = Except.error PyErr.typeError := rfl

/-! ### Claim C8: the Complex-strategy Negation rewrite -/

/-- Claim C8: on any node with a first operand, `negation_modifer` produces
exactly `Addition(BitLogicNegate(operand), Constant 1)`: the
`BitLogicNegate` carries the original node's result precision, the
`Constant 1` is an `ML_StdLogic` constant, and the `Addition` root carries
the original node's result precision and tag. -/
theorem negation_modifer_builds_not_plus_one (t op : OpTree) (h : t.get_input 0 = some op) :
    negation_modifer t = some (.node .Addition
      [.node .BitLogicNegate [op] t.get_precision none none,
       .node (.Constant 1) [] (some .ML_StdLogic) none none]
      t.get_precision t.get_tag none) := by
  unfold negation_modifer
  rw [h]

/-- A concrete `Negation` node over an 8-bit std_logic_vector operand. -/
def c8_operand : OpTree := .node (.Constant 5) [] (some (.ML_StdLogicVectorFormat 8)) none none

/-- The `Negation` node itself, tagged `"neg"`. -/
def c8_negation : OpTree :=
  .node .Negation [c8_operand] (some (.ML_StdLogicVectorFormat 8)) (some "neg") none

/-- Witness for C8: the rewrite evaluated on the concrete node. -/
theorem negation_modifer_builds_not_plus_one_witness :
    c8_negation.get_input 0 = some c8_operand ∧
    negation_modifer c8_negation = some (.node .Addition
      [.node .BitLogicNegate [c8_operand] (some (.ML_StdLogicVectorFormat 8)) none none,
       .node (.Constant 1) [] (some .ML_StdLogic) none none]
      (some (.ML_StdLogicVectorFormat 8)) (some "neg") none) :=
  ⟨rfl, negation_modifer_builds_not_plus_one c8_negation c8_operand rfl⟩

/-! ### Claim C10: `sext_modifier` always fails -/

/-- Claim C10: `sext_modifier` never returns a rewritten sub-tree: line 117
reads the local `ext_input` before its assignment on line 118, so every
invocation raises — an `UnboundLocalError` (a `NameError`) whenever the
node carries the `ext_size` attribute read on line 116 (and an
`AttributeError` from that earlier read otherwise). -/
theorem sext_modifier_never_returns (t : OpTree) :
    (∀ r : OpTree, sext_modifier t ≠ .ok r) ∧
    (t.ext_size.isSome = true → sext_modifier t = .error .unboundLocal) := by
  cases t with
  | node k i p tg e =>
    cases e with
    | none =>
      have he : sext_modifier (OpTree.node k i p tg none) = .error .attributeError := rfl
      constructor
      · intro r h
        rw [he] at h
        cases h
      · intro h
        simp [OpTree.ext_size] at h
    | some v =>
      have he : sext_modifier (OpTree.node k i p tg (some v)) = .error .unboundLocal := rfl
      constructor
      · intro r h
        rw [he] at h
        cases h
      · intro _
        exact he

/-- Witness for C10: a concrete sign-extension node with `ext_size = 4`
makes `sext_modifier` raise `UnboundLocalError`. -/
theorem sext_modifier_never_returns_witness :
    (OpTree.node .ZeroExt [c8_operand] (some (.ML_StdLogicVectorFormat 12)) none
      (some 4)).ext_size.isSome = true ∧
    sext_modifier (.node .ZeroExt [c8_operand] (some (.ML_StdLogicVectorFormat 12)) none
      (some 4)) = .error .unboundLocal :=
  ⟨rfl, (sext_modifier_never_returns _).2 rfl⟩

/-! ### Claim C7: nested scope sharing the constant category
(spec Scenario D) -/

/-- Code generator for Scenario D, rendering `double <name>;`. -/
def c7_cg : CodeGenerator := ⟨.C_Code, fun n _ => "double " ++ n ++ ";\n"⟩

/-- The constant object declared in the nested scope. -/
def c7_cst : PyObj := ⟨42, some .ML_Binary64, none⟩

/-- Source `NestedCode(code_generator, static_cst = True, static_table = True)`:
with `static_cst` set, the constant category is shared between the main
scope and every nested scope (reference 0 is the static constant table). -/
def c7_nc0 : NestedCode × Store := mkNestedCode [] c7_cg true true

/-- Open a nested scope. -/
def c7_nc1 : NestedCode × Store := NestedCode.open_level c7_nc0.2 c7_nc0.1

/-- Declare the constant inside the nested scope. -/
def c7_decl : String × NestedCode × Store := NestedCode.declare_cst c7_nc1.2 c7_nc1.1 c7_cst "cst"

/-- Close the nested scope. -/
def c7_nc2 : NestedCode × Store := NestedCode.close_level c7_decl.2.2 c7_decl.2.1 "\n"

/-- The final generated text (with version banner arguments "v", "sha"). -/
def c7_final_text : String := NestedCode.get c7_nc2.2 c7_nc2.1 "v" "sha"

/-- Number of occurrences of `pat` in `l` (at any starting position). -/
def substrCount (pat l : List Char) : Nat :=
  (List.range (l.length + 1)).countP (fun i => pat.isPrefixOf (l.drop i))

/-- Claim C7: opening a nested scope that shares the constant category with
its parent (both scopes' constant table is reference 0), declaring a
constant inside the nested scope, then closing it, leaves the constant
present exactly once in the shared constant table, and the final generated
text contains exactly one declaration for it: the inner scope's emission
excluded the shared category, the outer `get` emitted it once. -/
theorem scenarioD_shared_constant_declared_once :
    (Store.read c7_nc2.2 0).table = [("cst", c7_cst)] ∧
    c7_nc1.1.code_list.map (fun c => c.symbol_table.constant_table) = [0, 0] ∧
    c7_nc2.1.code_list.map (fun c => c.symbol_table.constant_table) = [0] ∧
    c7_final_text =
      "/** generated using metalibm v \n * sha1 git: sha **/\n\n\ndouble cst;\n\n\x7b\n\x7d\n" ∧
    substrCount "double cst;".data c7_final_text.data = 1 := by
  decide

/-! ### Claim C3: identity-deduplicated table declarations -/

theorem pyAssocSet_append {κ α : Type} [BEq κ] (l : List (κ × α)) (k : κ) (v : α)
    (h : pyContainsKey l k = false) : pyAssocSet k v l = l ++ [(k, v)] := by
  induction l with
  | nil => rfl
  | cons q t ih =>
    simp only [pyContainsKey, List.any_cons, Bool.or_eq_false_iff] at h
    simp only [pyAssocSet, h.1, Bool.false_eq_true, if_false, List.cons_append]
    rw [ih]
    simp [pyContainsKey, h.2]

theorem MultiSymbolTable.table_has_definition_none (s : Store) (mst : MultiSymbolTable)
    (obj : PyObj)
    (hown : (s.read mst.table_table).has_definition obj = none)
    (hpar : parentsTableDef s mst.parent_tables obj = none) :
    mst.table_has_definition s obj = none := by
  cases mst with
  | mk ct ft vt pt tt parents pi =>
    simp only [MultiSymbolTable.table_table] at hown
    simp only [MultiSymbolTable.parent_tables] at hpar
    simp only [MultiSymbolTable.table_has_definition, hown, hpar]

theorem MultiSymbolTable.table_has_definition_some_own (s : Store) (mst : MultiSymbolTable)
    (obj : PyObj) (k : String)
    (hown : (s.read mst.table_table).has_definition obj = some k) :
    mst.table_has_definition s obj = some k := by
  cases mst with
  | mk ct ft vt pt tt parents pi =>
    simp only [MultiSymbolTable.table_table] at hown
    simp only [MultiSymbolTable.table_has_definition, hown]

theorem parentsTableDef_none_elim (s : Store) (l : List MultiSymbolTable) (obj : PyObj)
    (h : parentsTableDef s l obj = none) :
    ∀ p ∈ l, MultiSymbolTable.table_has_definition s p obj = none := by
  induction l with
  | nil => intro p hp; cases hp
  | cons q t ih =>
    intro p hp
    rcases hq : MultiSymbolTable.table_has_definition s q obj with _ | k
    · simp only [parentsTableDef, hq] at h
      rcases List.mem_cons.mp hp with rfl | hp'
      · exact hq
      · exact ih h p hp'
    · simp only [parentsTableDef, hq] at h
      cases h

theorem MultiSymbolTable.table_has_definition_none_parents (s : Store)
    (mst : MultiSymbolTable) (obj : PyObj)
    (h : mst.table_has_definition s obj = none) :
    ∀ p ∈ mst.parent_tables, MultiSymbolTable.table_has_definition s p obj = none := by
  cases mst with
  | mk ct ft vt pt tt parents pi =>
    simp only [MultiSymbolTable.table_has_definition] at h
    rcases hq : (s.read tt).has_definition obj with _ | k
    · rw [hq] at h
      exact parentsTableDef_none_elim s parents obj h
    · rw [hq] at h
      cases h


/-- Claim C3: declaring the same table object (by identity) twice via
`declare_table` with the same prefix returns the same name on both calls
and leaves exactly one declaration entry for that object (the store is
unchanged by the second call); and whenever the identity search returns
`none`, the object is found in no ancestor table either — i.e. the search
does look through ancestor tables. -/
theorem declare_table_identity_dedup (s : Store) (co : CodeObject) (obj : PyObj) (pre : String)
    (href : co.symbol_table.table_table < s.length)
    (hown : ∀ p ∈ (Store.read s co.symbol_table.table_table).table, p.2.isSame obj = false)
    (hpar : parentsTableDef s co.symbol_table.parent_tables obj = none) :
    (CodeObject.declare_table (CodeObject.declare_table s co obj pre).2.2
        (CodeObject.declare_table s co obj pre).2.1 obj pre).1 =
      (CodeObject.declare_table s co obj pre).1 ∧
    (CodeObject.declare_table (CodeObject.declare_table s co obj pre).2.2
        (CodeObject.declare_table s co obj pre).2.1 obj pre).2.2 =
      (CodeObject.declare_table s co obj pre).2.2 ∧
    ((Store.read (CodeObject.declare_table s co obj pre).2.2
        (CodeObject.declare_table s co obj pre).2.1.symbol_table.table_table).table.filter
      (fun p => p.2.isSame obj)).length = 1 ∧
    (∀ (s2 : Store) (mst2 : MultiSymbolTable) (obj2 : PyObj),
      mst2.table_has_definition s2 obj2 = none →
      ∀ p ∈ mst2.parent_tables, MultiSymbolTable.table_has_definition s2 p obj2 = none) := by
  have h1 : co.symbol_table.table_has_definition s obj = none :=
    MultiSymbolTable.table_has_definition_none s co.symbol_table obj
      (SymbolTable.has_definition_eq_none _ obj hown) hpar
  have hr1 : CodeObject.declare_table s co obj pre =
      ((co.symbol_table.get_free_name s obj.storage_precision pre).1,
       { co with symbol_table := (co.symbol_table.get_free_name s obj.storage_precision pre).2 },
       (co.symbol_table.get_free_name s obj.storage_precision pre).2.declare_table_name s
         (co.symbol_table.get_free_name s obj.storage_precision pre).1 obj) := by
    unfold CodeObject.declare_table
    rw [h1]
  have htt1 : (co.symbol_table.get_free_name s obj.storage_precision pre).2.table_table =
      co.symbol_table.table_table :=
    (MultiSymbolTable.get_free_name_snd_fields s co.symbol_table obj.storage_precision pre).2.2.2.2.1
  have hfree : co.symbol_table.is_free_name s
      (co.symbol_table.get_free_name s obj.storage_precision pre).1 = true :=
    MultiSymbolTable.get_free_name_is_free s co.symbol_table obj.storage_precision pre
  have hfreeT : (Store.read s co.symbol_table.table_table).is_free_name
      (co.symbol_table.get_free_name s obj.storage_precision pre).1 = true :=
    MultiSymbolTable.is_free_name_table_component s co.symbol_table _ hfree
  have hnotkey : pyContainsKey (Store.read s co.symbol_table.table_table).table
      (co.symbol_table.get_free_name s obj.storage_precision pre).1 = false := by
    simpa [SymbolTable.is_free_name] using hfreeT
  have hs1 : (co.symbol_table.get_free_name s obj.storage_precision pre).2.declare_table_name s
      (co.symbol_table.get_free_name s obj.storage_precision pre).1 obj =
      Store.write s co.symbol_table.table_table
        { Store.read s co.symbol_table.table_table with
          table := (Store.read s co.symbol_table.table_table).table ++
            [((co.symbol_table.get_free_name s obj.storage_precision pre).1, obj)] } := by
    unfold MultiSymbolTable.declare_table_name
    rw [htt1]
    unfold SymbolTable.declare_symbol
    rw [pyAssocSet_append _ _ _ hnotkey]
  have hread1 : Store.read (Store.write s co.symbol_table.table_table
      { Store.read s co.symbol_table.table_table with
        table := (Store.read s co.symbol_table.table_table).table ++
          [((co.symbol_table.get_free_name s obj.storage_precision pre).1, obj)] })
      co.symbol_table.table_table =
      { Store.read s co.symbol_table.table_table with
        table := (Store.read s co.symbol_table.table_table).table ++
          [((co.symbol_table.get_free_name s obj.storage_precision pre).1, obj)] } :=
    Store.read_write_self _ _ _ href
  have hsame : obj.isSame obj = true := by simp [PyObj.isSame]
  have hhd : SymbolTable.has_definition
      { Store.read s co.symbol_table.table_table with
        table := (Store.read s co.symbol_table.table_table).table ++
          [((co.symbol_table.get_free_name s obj.storage_precision pre).1, obj)] } obj =
      some (co.symbol_table.get_free_name s obj.storage_precision pre).1 := by
    apply SymbolTable.has_definition_eq_some _ obj _ obj
    · exact List.mem_append_right _ (List.mem_singleton.mpr rfl)
    · exact hsame
    · intro p hp hne
      rcases List.mem_append.mp hp with hl | hr
      · exact hown p hl
      · exact absurd (List.mem_singleton.mp hr) hne
  have h2 : MultiSymbolTable.table_has_definition
      ((co.symbol_table.get_free_name s obj.storage_precision pre).2.declare_table_name s
        (co.symbol_table.get_free_name s obj.storage_precision pre).1 obj)
      (co.symbol_table.get_free_name s obj.storage_precision pre).2 obj =
      some (co.symbol_table.get_free_name s obj.storage_precision pre).1 := by
    apply MultiSymbolTable.table_has_definition_some_own
    rw [htt1, hs1, hread1]
    exact hhd
  refine ⟨?_, ?_, ?_, ?_⟩
  · rw [hr1]
    unfold CodeObject.declare_table
    rw [show ({ co with symbol_table :=
        (co.symbol_table.get_free_name s obj.storage_precision pre).2 } : CodeObject).symbol_table =
      (co.symbol_table.get_free_name s obj.storage_precision pre).2 from rfl, h2]
  · rw [hr1]
    unfold CodeObject.declare_table
    rw [show ({ co with symbol_table :=
        (co.symbol_table.get_free_name s obj.storage_precision pre).2 } : CodeObject).symbol_table =
      (co.symbol_table.get_free_name s obj.storage_precision pre).2 from rfl, h2]
  · rw [hr1]
    rw [show ({ co with symbol_table :=
        (co.symbol_table.get_free_name s obj.storage_precision pre).2 } : CodeObject).symbol_table =
      (co.symbol_table.get_free_name s obj.storage_precision pre).2 from rfl]
    rw [hs1, htt1, hread1]
    rw [show ({ Store.read s co.symbol_table.table_table with
        table := (Store.read s co.symbol_table.table_table).table ++
          [((co.symbol_table.get_free_name s obj.storage_precision pre).1, obj)] } :
        SymbolTable).table =
      (Store.read s co.symbol_table.table_table).table ++
        [((co.symbol_table.get_free_name s obj.storage_precision pre).1, obj)] from rfl]
    rw [List.filter_append]
    rw [List.filter_eq_nil_iff.mpr (by intro a ha; rw [hown a ha]; simp)]
    simp [hsame]
  · intro s2 mst2 obj2 h
    exact MultiSymbolTable.table_has_definition_none_parents s2 mst2 obj2 h


/-- The `CodeObject` of the claim-C3 witness scenario: an empty scope over
`scnStore0`. -/
def c3_co : CodeObject :=
  { expanded_code := "", tablevel := 0, header_list := [], symbol_table := scnMst0,
    language := .C_Code }

/-- The table object of the claim-C3 witness scenario. -/
def c3_obj : PyObj := ⟨7, none, some .ML_Binary32⟩

/-- Witness for C3: on the concrete empty scope, both `declare_table`
calls return the same name. -/
theorem declare_table_identity_dedup_witness :
    (c3_co.symbol_table.table_table < scnStore0.length ∧
     (∀ p ∈ (Store.read scnStore0 c3_co.symbol_table.table_table).table,
        p.2.isSame c3_obj = false) ∧
     parentsTableDef scnStore0 c3_co.symbol_table.parent_tables c3_obj = none) ∧
    (CodeObject.declare_table (CodeObject.declare_table scnStore0 c3_co c3_obj "table").2.2
        (CodeObject.declare_table scnStore0 c3_co c3_obj "table").2.1 c3_obj "table").1 =
      (CodeObject.declare_table scnStore0 c3_co c3_obj "table").1 :=
  ⟨⟨by decide, by decide, rfl⟩,
   (declare_table_identity_dedup scnStore0 c3_co c3_obj "table"
     (by decide) (by decide) rfl).1⟩

end Metalibm
